import Mathlib

/-!
Shallow embedding of the talent-scout pipeline:
* `src/player.rs` — the player database and the ranking index
  (`PlayerDB`, `index_players`, the print loops, `PlayerWithScore::cmp`);
* `src/utils.rs` — the cache-backed retriever
  (`read_from_cache`, `write_to_cache`, `request_data`, `fetch_data`);
* `src/main.rs` — the per-competitor accumulation loop.

Rust `u16`/`u32` metric values are embedded as `Nat` (the code only
compares them, never performs overflowing arithmetic).  The `HashMap` of
players is embedded as an association list with no duplicate keys; the
`BTreeSet` used for ranking is embedded as a sorted insertion into a list,
keyed by the very comparator the source defines.  Effectful code
(filesystem cache, HTTP transport, rate-limit sleep) is embedded by
explicit state passing plus an event trace.
-/

namespace TalentScout

/-- Player identifiers are strings (`pub type PlayerId = String`). -/
abbrev PlayerId := String

/-- Embeds `struct Player` from `src/player.rs`. -/
structure Player where
  id : String
  name : String
  goals_scored : Nat
  assists : Nat
deriving Repr, DecidableEq

/-- Embeds `struct PlayerDB`: the `HashMap<PlayerId, Player>` is an
association list with unique keys plus the two derived index vectors. -/
structure PlayerDB where
  players : List (PlayerId × Player)
  top_scorers : List PlayerId
  top_assists : List PlayerId
deriving Repr, DecidableEq

/-- Embeds `PlayerDB::new`. -/
def PlayerDB.new : PlayerDB :=
  { players := [], top_scorers := [], top_assists := [] }

/-- Embeds `PlayerDB::add_player`: `self.players.insert(player.id.clone(), player)`,
i.e. a keyed map insert with overwrite-on-duplicate semantics. -/
def PlayerDB.add_player (db : PlayerDB) (player : Player) : PlayerDB :=
  { db with players :=
      (player.id, player) :: db.players.filter (fun q => q.1 != player.id) }

/-- Embeds `struct PlayerWithScore` (id plus the goals metric). -/
structure PlayerWithScore where
  id : String
  score : Nat
deriving Repr, DecidableEq

/-- Embeds `impl Ord for PlayerWithScore`:
`other.score.cmp(&self.score).then_with(|| self.id.cmp(&other.id))` —
descending by score, ascending by id. -/
def PlayerWithScore.cmp (self other : PlayerWithScore) : Ordering :=
  (compare other.score self.score).then (compare self.id other.id)

/-- Embeds `struct PlayerWithAssists` (id plus the assists metric). -/
structure PlayerWithAssists where
  id : String
  assists : Nat
deriving Repr, DecidableEq

/-- Embeds `impl Ord for PlayerWithAssists`:
`other.assists.cmp(&self.assists).then_with(|| self.id.cmp(&other.id))`. -/
def PlayerWithAssists.cmp (self other : PlayerWithAssists) : Ordering :=
  (compare other.assists self.assists).then (compare self.id other.id)

/-- Embeds `BTreeSet::insert` followed by ascending iteration: the set is
kept as a list sorted ascending by `cmp`; an element comparing `.eq` to a
present one is not inserted (Rust `BTreeSet::insert` keeps the old value). -/
def btreeInsert {α : Type} (cmp : α → α → Ordering) (x : α) : List α → List α
  | [] => [x]
  | y :: ys =>
    match cmp x y with
    | .lt => x :: y :: ys
    | .eq => y :: ys
    | .gt => y :: btreeInsert cmp x ys

/-- The `top_scorers: BTreeSet<PlayerWithScore>` built by the first loop of
`PlayerDB::index_players`, as its ascending iteration order. -/
def scoreSet (players : List (PlayerId × Player)) : List PlayerWithScore :=
  players.foldl (fun s p => btreeInsert PlayerWithScore.cmp ⟨p.1, p.2.goals_scored⟩ s) []

/-- The `top_assists: BTreeSet<PlayerWithAssists>` built by the second loop
of `PlayerDB::index_players`. -/
def assistSet (players : List (PlayerId × Player)) : List PlayerWithAssists :=
  players.foldl (fun s p => btreeInsert PlayerWithAssists.cmp ⟨p.1, p.2.assists⟩ s) []

/-- Embeds `PlayerDB::index_players`: build both ordered sets from the
player map, then `take(10)` from each and keep only the ids. -/
def PlayerDB.index_players (db : PlayerDB) : PlayerDB :=
  { db with
    top_scorers := ((scoreSet db.players).take 10).map (fun p => p.id)
    top_assists := ((assistSet db.players).take 10).map (fun p => p.id) }

/-- Embeds `self.players.get(id)` on the association-list map. -/
def lookupPlayer (players : List (PlayerId × Player)) (id : PlayerId) : Option Player :=
  players.lookup id

/-- Embeds the shared body of the `print_top_scorers` / `print_top_assists`
loops: walk the id list carrying `position` and the previous metric value,
look each id up in the map (`none` models the `unwrap` panic), and emit one
`(position, name, value)` triple per printed line.  `isFirst` models the
`index == 0` special case that seeds `prev` with the first value. -/
def leaderboardLoop (players : List (PlayerId × Player)) (sel : Player → Nat) :
    List PlayerId → Bool → Nat → Nat → Option (List (Nat × String × Nat))
  | [], _, _, _ => some []
  | id :: rest, isFirst, position, prev =>
    match lookupPlayer players id with
    | none => none
    | some player =>
      let v := sel player
      let prev1 := if isFirst then v else prev
      let position2 := if prev1 > v then position + 1 else position
      let prev2 := if prev1 > v then v else prev1
      match leaderboardLoop players sel rest false position2 prev2 with
      | none => none
      | some tail => some ((position2, player.name, v) :: tail)

/-- Embeds `PlayerDB::print_top_scorers` as the list of printed
`(position, name, goals)` lines (`some []` is the empty-list message path;
`none` models a panicking `unwrap`).  `position` starts at 1, `prev_score`
at 0. -/
def print_top_scorers_lines (db : PlayerDB) : Option (List (Nat × String × Nat)) :=
  if db.top_scorers.isEmpty then some []
  else leaderboardLoop db.players (fun p => p.goals_scored) db.top_scorers true 1 0

/-- Embeds `PlayerDB::print_top_assists` as the list of printed
`(position, name, assists)` lines. -/
def print_top_assists_lines (db : PlayerDB) : Option (List (Nat × String × Nat)) :=
  if db.top_assists.isEmpty then some []
  else leaderboardLoop db.players (fun p => p.assists) db.top_assists true 1 0

/-! ## Cache-backed retriever (`src/utils.rs`)

The serde codec is an external collaborator (spec section 6): it is
embedded as a pair of functions, `encode` modelling
`serde_json::to_string_pretty` (which can fail) and `decode` modelling
`serde_json::from_str` / `response.json::<T>()`.  The filesystem cache is
an association list from path to file contents; `fs::write` overwrites,
and its possible IO failure is the `writeOk` flag.  The HTTP transport is
a `Transport` record giving the outcome of the single `send`: whether it
succeeds, the response status, and the body.  Sleeping and sending are
recorded in an event trace. -/

/-- JSON codec collaborator for payload type `T`. -/
structure Codec (T : Type) where
  encode : T → Option String
  decode : String → Option T

/-- Filesystem cache state: association list from path to file contents. -/
abbrev CacheState := List (String × String)

/-- Overwriting `fs::write` on the cache state (lookup sees the newest). -/
def fsWrite (fs : CacheState) (path contents : String) : CacheState :=
  (path, contents) :: fs

/-- Embeds `read_from_cache`: if the cache file exists, read and decode it
(decode failure is the error `Failed to deserialize JSON from cache`);
otherwise return `none`. -/
def read_from_cache {T : Type} (codec : Codec T) (fs : CacheState)
    (cache_path : String) : Except String (Option T) :=
  match fs.lookup cache_path with
  | none => .ok none
  | some file_content =>
    match codec.decode file_content with
    | none => .error "Failed to deserialize JSON from cache"
    | some data => .ok (some data)

/-- Embeds `write_to_cache`: serialize (failure is
`Failed to serialize data to JSON`), then `fs::write` (failure, modelled by
`writeOk = false`, is `Failed to write the cache file`). -/
def write_to_cache {T : Type} (codec : Codec T) (writeOk : Bool)
    (fs : CacheState) (cache_path : String) (data : T) : Except String CacheState :=
  match codec.encode data with
  | none => .error "Failed to serialize data to JSON"
  | some json_string =>
    if writeOk then .ok (fsWrite fs cache_path json_string)
    else .error "Failed to write the cache file"

/-- Observable effects of the retriever: the rate-limit sleep and the
dispatch of the HTTP request. -/
inductive Event where
  | sleep (secs : Nat)
  | send
deriving Repr, DecidableEq

/-- Transport collaborator: the outcome of `request.send()` for this
invocation — whether the send succeeds, and the response status and body. -/
structure Transport where
  sendOk : Bool
  status : Nat
  body : String

/-- Embeds `reqwest::StatusCode::is_success`: the 2xx range. -/
def statusIsSuccess (status : Nat) : Bool :=
  200 ≤ status && status < 300

/-- Embeds `request_data`: sleep 2 seconds when `access_level == "trial"`,
send, fail on transport error or non-success status, then decode the body.
Returns the result together with the trace of sleep/send events. -/
def request_data {T : Type} (codec : Codec T) (transport : Transport)
    (access_level : String) : Except String T × List Event :=
  let events := (if access_level == "trial" then [Event.sleep 2] else []) ++ [Event.send]
  if !transport.sendOk then (.error "Failed to send request", events)
  else if !statusIsSuccess transport.status then
    (.error ("Request failed with status: " ++ toString transport.status), events)
  else
    match codec.decode transport.body with
    | none => (.error "Failed to parse JSON response", events)
    | some data => (.ok data, events)

/-- Embeds `fetch_data`: return the cached payload when the cache hits;
on a miss request the data, and on success persist it to the cache before
returning it, propagating any cache-write error.  Returns the result, the
event trace, and the resulting cache state. -/
def fetch_data {T : Type} (codec : Codec T) (transport : Transport) (writeOk : Bool)
    (fs : CacheState) (cache_path : String) (access_level : String) :
    Except String T × List Event × CacheState :=
  match read_from_cache codec fs cache_path with
  | .error e => (.error e, [], fs)
  | .ok (some data) => (.ok data, [], fs)
  | .ok none =>
    match request_data codec transport access_level with
    | (.error e, events) => (.error e, events, fs)
    | (.ok data, events) =>
      match write_to_cache codec writeOk fs cache_path data with
      | .error e => (.error e, events, fs)
      | .ok fs2 => (.ok data, events, fs2)

/-! ## Accumulation loop (`src/main.rs`)

Step 3 of `main`: for each season competitor, fetch its statistics; on
success, skip empty rosters, add every player with a non-zero
`goals_scored` to the database and re-index; on failure the `match` arm
returns `Err(err)` and the trailing `?` propagates it out of `main`.
The per-competitor fetch outcomes are the input list of the loop. -/

/-- Embeds `struct ApiPlayerGameStatistic`. -/
structure ApiPlayerGameStatistic where
  goals_scored : Nat
  assists : Nat
deriving Repr, DecidableEq

/-- Embeds `struct ApiGamePlayers`. -/
structure ApiGamePlayers where
  id : String
  name : String
  statistics : ApiPlayerGameStatistic
deriving Repr, DecidableEq

/-- Embeds `struct ApiSeasonCompetitorStatistic` (the team-level
`statistics.goals_scored` field is carried but unused by the loop). -/
structure ApiSeasonCompetitorStatistic where
  id : String
  statistics : Nat
  players : List ApiGamePlayers
deriving Repr, DecidableEq

/-- Embeds `struct ApiSeasonCompetitorStatistics`. -/
structure ApiSeasonCompetitorStatistics where
  competitor : ApiSeasonCompetitorStatistic
deriving Repr, DecidableEq

/-- The `Ok(data)` arm of the loop body: `continue` on an empty roster,
otherwise add every player whose `goals_scored` is non-zero and re-index. -/
def processUnit (db : PlayerDB) (data : ApiSeasonCompetitorStatistics) : PlayerDB :=
  if data.competitor.players.isEmpty then db
  else
    let db := data.competitor.players.foldl
      (fun db player =>
        if player.statistics.goals_scored == 0 then db
        else db.add_player
          { id := player.id
            name := player.name
            goals_scored := player.statistics.goals_scored
            assists := player.statistics.assists })
      db
    db.index_players

/-- Embeds the competitor loop of `main`: fold `processUnit` over the
fetch outcomes; an `Err` outcome is returned through the `?` operator,
aborting the remainder of the loop. -/
def processUnits (db : PlayerDB) :
    List (Except String ApiSeasonCompetitorStatistics) → Except String PlayerDB
  | [] => .ok db
  | result :: rest =>
    match result with
    | .ok data => processUnits (processUnit db data) rest
    | .error err => .error err

/-! ## Order theory for the ranking comparators -/

/-- The strict order realised by `PlayerWithScore.cmp`: descending score,
ties broken by ascending id. -/
def pwsLT (a b : PlayerWithScore) : Prop :=
  b.score < a.score ∨ (b.score = a.score ∧ a.id < b.id)

/-- The strict order realised by `PlayerWithAssists.cmp`. -/
def pwaLT (a b : PlayerWithAssists) : Prop :=
  b.assists < a.assists ∨ (b.assists = a.assists ∧ a.id < b.id)

lemma pwsLT_trans {a b c : PlayerWithScore} (h1 : pwsLT a b) (h2 : pwsLT b c) :
    pwsLT a c := by
  rcases h1 with h1 | ⟨h1, h1i⟩ <;> rcases h2 with h2 | ⟨h2, h2i⟩
  · exact Or.inl (lt_trans h2 h1)
  · exact Or.inl (h2 ▸ h1)
  · exact Or.inl (h1 ▸ h2)
  · exact Or.inr ⟨h2.trans h1, lt_trans h1i h2i⟩

lemma pwaLT_trans {a b c : PlayerWithAssists} (h1 : pwaLT a b) (h2 : pwaLT b c) :
    pwaLT a c := by
  rcases h1 with h1 | ⟨h1, h1i⟩ <;> rcases h2 with h2 | ⟨h2, h2i⟩
  · exact Or.inl (lt_trans h2 h1)
  · exact Or.inl (h2 ▸ h1)
  · exact Or.inl (h1 ▸ h2)
  · exact Or.inr ⟨h2.trans h1, lt_trans h1i h2i⟩

lemma pwsLT_irrefl (a : PlayerWithScore) : ¬ pwsLT a a := by
  rintro (h | ⟨-, h⟩) <;> exact lt_irrefl _ h

lemma pwaLT_irrefl (a : PlayerWithAssists) : ¬ pwaLT a a := by
  rintro (h | ⟨-, h⟩) <;> exact lt_irrefl _ h

lemma pwsCmp_eq_lt_iff (a b : PlayerWithScore) :
    PlayerWithScore.cmp a b = .lt ↔ pwsLT a b := by
  unfold PlayerWithScore.cmp pwsLT
  rcases lt_trichotomy b.score a.score with h | h | h
  · rw [compare_lt_iff_lt.mpr h]
    simp [Ordering.then, h]
  · rw [compare_eq_iff_eq.mpr h]
    simp [Ordering.then, h, lt_irrefl, compare_lt_iff_lt]
  · rw [compare_gt_iff_gt.mpr h]
    simp [Ordering.then]
    omega

lemma pwsCmp_eq_eq_iff (a b : PlayerWithScore) :
    PlayerWithScore.cmp a b = .eq ↔ a = b := by
  unfold PlayerWithScore.cmp
  rcases lt_trichotomy b.score a.score with h | h | h
  · rw [compare_lt_iff_lt.mpr h]
    simp [Ordering.then]
    intro he; rw [he] at h; exact absurd h (lt_irrefl _)
  · rw [compare_eq_iff_eq.mpr h]
    cases a; cases b
    simp only at h
    simp [Ordering.then, compare_eq_iff_eq, h]
  · rw [compare_gt_iff_gt.mpr h]
    simp [Ordering.then]
    intro he; rw [he] at h; exact absurd h (lt_irrefl _)

lemma pwsCmp_eq_gt_imp (a b : PlayerWithScore)
    (h : PlayerWithScore.cmp a b = .gt) : pwsLT b a := by
  unfold PlayerWithScore.cmp at h
  unfold pwsLT
  rcases lt_trichotomy b.score a.score with hs | hs | hs
  · rw [compare_lt_iff_lt.mpr hs] at h; simp [Ordering.then] at h
  · rw [compare_eq_iff_eq.mpr hs] at h
    simp only [Ordering.then] at h
    exact Or.inr ⟨hs.symm, compare_gt_iff_gt.mp h⟩
  · exact Or.inl hs

lemma pwaCmp_eq_lt_iff (a b : PlayerWithAssists) :
    PlayerWithAssists.cmp a b = .lt ↔ pwaLT a b := by
  unfold PlayerWithAssists.cmp pwaLT
  rcases lt_trichotomy b.assists a.assists with h | h | h
  · rw [compare_lt_iff_lt.mpr h]
    simp [Ordering.then, h]
  · rw [compare_eq_iff_eq.mpr h]
    simp [Ordering.then, h, lt_irrefl, compare_lt_iff_lt]
  · rw [compare_gt_iff_gt.mpr h]
    simp [Ordering.then]
    omega

lemma pwaCmp_eq_eq_iff (a b : PlayerWithAssists) :
    PlayerWithAssists.cmp a b = .eq ↔ a = b := by
  unfold PlayerWithAssists.cmp
  rcases lt_trichotomy b.assists a.assists with h | h | h
  · rw [compare_lt_iff_lt.mpr h]
    simp [Ordering.then]
    intro he; rw [he] at h; exact absurd h (lt_irrefl _)
  · rw [compare_eq_iff_eq.mpr h]
    cases a; cases b
    simp only at h
    simp [Ordering.then, compare_eq_iff_eq, h]
  · rw [compare_gt_iff_gt.mpr h]
    simp [Ordering.then]
    intro he; rw [he] at h; exact absurd h (lt_irrefl _)

lemma pwaCmp_eq_gt_imp (a b : PlayerWithAssists)
    (h : PlayerWithAssists.cmp a b = .gt) : pwaLT b a := by
  unfold PlayerWithAssists.cmp at h
  unfold pwaLT
  rcases lt_trichotomy b.assists a.assists with hs | hs | hs
  · rw [compare_lt_iff_lt.mpr hs] at h; simp [Ordering.then] at h
  · rw [compare_eq_iff_eq.mpr hs] at h
    simp only [Ordering.then] at h
    exact Or.inr ⟨hs.symm, compare_gt_iff_gt.mp h⟩
  · exact Or.inl hs

/-! ## Generic `btreeInsert` lemmas -/

lemma mem_btreeInsert {α : Type} (cmp : α → α → Ordering)
    (heq : ∀ a b, cmp a b = .eq → a = b) (x : α) (l : List α) (z : α) :
    z ∈ btreeInsert cmp x l ↔ z = x ∨ z ∈ l := by
  induction l with
  | nil => simp [btreeInsert]
  | cons y ys ih =>
    cases h : cmp x y with
    | lt =>
      simp only [btreeInsert, h, List.mem_cons]
    | eq =>
      have hxy := heq x y h
      simp only [btreeInsert, h, List.mem_cons]
      subst hxy
      tauto
    | gt =>
      simp only [btreeInsert, h, List.mem_cons, ih]
      tauto

lemma pairwise_btreeInsert {α : Type} (cmp : α → α → Ordering) (ltR : α → α → Prop)
    (hlt : ∀ a b, cmp a b = .lt → ltR a b)
    (heq : ∀ a b, cmp a b = .eq → a = b)
    (hgt : ∀ a b, cmp a b = .gt → ltR b a)
    (htrans : ∀ a b c, ltR a b → ltR b c → ltR a c)
    (x : α) (l : List α) (hl : l.Pairwise ltR) :
    (btreeInsert cmp x l).Pairwise ltR := by
  induction l with
  | nil => simp [btreeInsert]
  | cons y ys ih =>
    rcases List.pairwise_cons.mp hl with ⟨hy, hys⟩
    cases h : cmp x y with
    | lt =>
      have hxy := hlt x y h
      simp only [btreeInsert, h]
      refine List.pairwise_cons.mpr ⟨?_, hl⟩
      intro z hz
      rcases List.mem_cons.mp hz with rfl | hz
      · exact hxy
      · exact htrans _ _ _ hxy (hy z hz)
    | eq =>
      simp only [btreeInsert, h]
      exact hl
    | gt =>
      have hyx := hgt x y h
      simp only [btreeInsert, h]
      refine List.pairwise_cons.mpr ⟨?_, ih hys⟩
      intro z hz
      rcases (mem_btreeInsert cmp heq x ys z).mp hz with rfl | hz
      · exact hyx
      · exact hy z hz

lemma mem_foldl_btreeInsert {α β : Type} (cmp : α → α → Ordering)
    (heq : ∀ a b, cmp a b = .eq → a = b) (f : β → α) (ps : List β) (s0 : List α) (z : α) :
    z ∈ ps.foldl (fun s p => btreeInsert cmp (f p) s) s0 ↔ z ∈ s0 ∨ ∃ p ∈ ps, z = f p := by
  induction ps generalizing s0 with
  | nil => simp
  | cons p ps ih =>
    simp only [List.foldl_cons, ih, mem_btreeInsert cmp heq, List.mem_cons]
    constructor
    · rintro ((rfl | hz) | ⟨q, hq, rfl⟩)
      · exact Or.inr ⟨p, Or.inl rfl, rfl⟩
      · exact Or.inl hz
      · exact Or.inr ⟨q, Or.inr hq, rfl⟩
    · rintro (hz | ⟨q, rfl | hq, rfl⟩)
      · exact Or.inl (Or.inr hz)
      · exact Or.inl (Or.inl rfl)
      · exact Or.inr ⟨q, hq, rfl⟩

lemma pairwise_foldl_btreeInsert {α β : Type} (cmp : α → α → Ordering) (ltR : α → α → Prop)
    (hlt : ∀ a b, cmp a b = .lt → ltR a b)
    (heq : ∀ a b, cmp a b = .eq → a = b)
    (hgt : ∀ a b, cmp a b = .gt → ltR b a)
    (htrans : ∀ a b c, ltR a b → ltR b c → ltR a c)
    (f : β → α) (ps : List β) (s0 : List α) (h0 : s0.Pairwise ltR) :
    (ps.foldl (fun s p => btreeInsert cmp (f p) s) s0).Pairwise ltR := by
  induction ps generalizing s0 with
  | nil => exact h0
  | cons p ps ih =>
    exact ih _ (pairwise_btreeInsert cmp ltR hlt heq hgt htrans (f p) s0 h0)

/-! ## Key uniqueness of the player map -/

/-- The association-list embedding of `HashMap<PlayerId, Player>` carries
no duplicate keys. -/
def keysNodup (ps : List (PlayerId × Player)) : Prop :=
  (ps.map Prod.fst).Nodup

instance (ps : List (PlayerId × Player)) : Decidable (keysNodup ps) :=
  inferInstanceAs (Decidable ((ps.map Prod.fst).Nodup))

lemma mem_eq_of_keysNodup {ps : List (PlayerId × Player)} (hnd : keysNodup ps)
    {p q : PlayerId × Player} (hp : p ∈ ps) (hq : q ∈ ps) (hk : p.1 = q.1) : p = q := by
  induction ps with
  | nil => simp at hp
  | cons r ps ih =>
    have hnd' := hnd
    simp only [keysNodup, List.map_cons, List.nodup_cons] at hnd'
    obtain ⟨hr, hps⟩ := hnd'
    rcases List.mem_cons.mp hp with rfl | hp1
    · rcases List.mem_cons.mp hq with rfl | hq1
      · rfl
      · exact absurd (hk ▸ List.mem_map_of_mem Prod.fst hq1) hr
    · rcases List.mem_cons.mp hq with rfl | hq1
      · exact absurd (hk ▸ List.mem_map_of_mem Prod.fst hp1) hr
      · exact ih hps hp1 hq1

lemma lookup_eq_some_of_mem {ps : List (PlayerId × Player)} (hnd : keysNodup ps)
    {id : PlayerId} {p : Player} (h : (id, p) ∈ ps) : lookupPlayer ps id = some p := by
  induction ps with
  | nil => simp at h
  | cons q ps ih =>
    have hnd' := hnd
    simp only [keysNodup, List.map_cons, List.nodup_cons] at hnd'
    obtain ⟨hq, hps⟩ := hnd'
    rcases List.mem_cons.mp h with he | h
    · rw [← he]
      simp [lookupPlayer, List.lookup]
    · have hne : (id == q.1) = false := by
        refine beq_eq_false_iff_ne.mpr ?_
        intro he
        exact hq (he ▸ List.mem_map_of_mem Prod.fst h)
      have hrec := ih hps h
      simp only [lookupPlayer, List.lookup, hne] at hrec ⊢
      exact hrec

/-! ## Facts about `scoreSet`, `assistSet` and `index_players` -/

lemma mem_scoreSet (players : List (PlayerId × Player)) (z : PlayerWithScore) :
    z ∈ scoreSet players ↔ ∃ p ∈ players, z = ⟨p.1, p.2.goals_scored⟩ := by
  have := mem_foldl_btreeInsert PlayerWithScore.cmp
    (fun a b h => (pwsCmp_eq_eq_iff a b).mp h)
    (fun p : PlayerId × Player => (⟨p.1, p.2.goals_scored⟩ : PlayerWithScore)) players [] z
  simpa [scoreSet] using this

lemma mem_assistSet (players : List (PlayerId × Player)) (z : PlayerWithAssists) :
    z ∈ assistSet players ↔ ∃ p ∈ players, z = ⟨p.1, p.2.assists⟩ := by
  have := mem_foldl_btreeInsert PlayerWithAssists.cmp
    (fun a b h => (pwaCmp_eq_eq_iff a b).mp h)
    (fun p : PlayerId × Player => (⟨p.1, p.2.assists⟩ : PlayerWithAssists)) players [] z
  simpa [assistSet] using this

lemma scoreSet_pairwise (players : List (PlayerId × Player)) :
    (scoreSet players).Pairwise pwsLT := by
  exact pairwise_foldl_btreeInsert PlayerWithScore.cmp pwsLT
    (fun a b h => (pwsCmp_eq_lt_iff a b).mp h)
    (fun a b h => (pwsCmp_eq_eq_iff a b).mp h)
    pwsCmp_eq_gt_imp
    (fun _ _ _ => pwsLT_trans)
    _ players [] (List.Pairwise.nil)

lemma assistSet_pairwise (players : List (PlayerId × Player)) :
    (assistSet players).Pairwise pwaLT := by
  exact pairwise_foldl_btreeInsert PlayerWithAssists.cmp pwaLT
    (fun a b h => (pwaCmp_eq_lt_iff a b).mp h)
    (fun a b h => (pwaCmp_eq_eq_iff a b).mp h)
    pwaCmp_eq_gt_imp
    (fun _ _ _ => pwaLT_trans)
    _ players [] (List.Pairwise.nil)

lemma index_players_players (db : PlayerDB) :
    (db.index_players).players = db.players := rfl

lemma topScorers_eq (db : PlayerDB) :
    (db.index_players).top_scorers
      = ((scoreSet db.players).take 10).map (fun p => p.id) := rfl

lemma topAssists_eq (db : PlayerDB) :
    (db.index_players).top_assists
      = ((assistSet db.players).take 10).map (fun p => p.id) := rfl

lemma take_scoreSet_pairwise (players : List (PlayerId × Player)) :
    ((scoreSet players).take 10).Pairwise pwsLT :=
  List.Pairwise.sublist (List.take_sublist 10 _) (scoreSet_pairwise players)

lemma take_assistSet_pairwise (players : List (PlayerId × Player)) :
    ((assistSet players).take 10).Pairwise pwaLT :=
  List.Pairwise.sublist (List.take_sublist 10 _) (assistSet_pairwise players)

lemma scoreSet_id_inj {players : List (PlayerId × Player)} (hnd : keysNodup players)
    {e1 e2 : PlayerWithScore} (h1 : e1 ∈ scoreSet players) (h2 : e2 ∈ scoreSet players)
    (hid : e1.id = e2.id) : e1 = e2 := by
  rcases (mem_scoreSet players e1).mp h1 with ⟨p1, hp1, rfl⟩
  rcases (mem_scoreSet players e2).mp h2 with ⟨p2, hp2, rfl⟩
  rw [mem_eq_of_keysNodup hnd hp1 hp2 (by simpa using hid)]

lemma assistSet_id_inj {players : List (PlayerId × Player)} (hnd : keysNodup players)
    {e1 e2 : PlayerWithAssists} (h1 : e1 ∈ assistSet players) (h2 : e2 ∈ assistSet players)
    (hid : e1.id = e2.id) : e1 = e2 := by
  rcases (mem_assistSet players e1).mp h1 with ⟨p1, hp1, rfl⟩
  rcases (mem_assistSet players e2).mp h2 with ⟨p2, hp2, rfl⟩
  rw [mem_eq_of_keysNodup hnd hp1 hp2 (by simpa using hid)]

lemma topScorers_nodup (db : PlayerDB) (hnd : keysNodup db.players) :
    (db.index_players).top_scorers.Nodup := by
  rw [topScorers_eq]
  have hpw := take_scoreSet_pairwise db.players
  refine List.Nodup.map_on ?_ (hpw.imp ?_)
  · intro e1 h1 e2 h2 hid
    exact scoreSet_id_inj hnd ((List.take_sublist 10 _).subset h1)
      ((List.take_sublist 10 _).subset h2) hid
  · intro a b hab
    rintro rfl
    exact pwsLT_irrefl a hab

lemma topAssists_nodup (db : PlayerDB) (hnd : keysNodup db.players) :
    (db.index_players).top_assists.Nodup := by
  rw [topAssists_eq]
  have hpw := take_assistSet_pairwise db.players
  refine List.Nodup.map_on ?_ (hpw.imp ?_)
  · intro e1 h1 e2 h2 hid
    exact assistSet_id_inj hnd ((List.take_sublist 10 _).subset h1)
      ((List.take_sublist 10 _).subset h2) hid
  · intro a b hab
    rintro rfl
    exact pwaLT_irrefl a hab

lemma mem_players_of_mem_topScorers {db : PlayerDB} {id : PlayerId}
    (h : id ∈ (db.index_players).top_scorers) : ∃ p, (id, p) ∈ db.players := by
  rw [topScorers_eq] at h
  rcases List.mem_map.mp h with ⟨e, he, rfl⟩
  have hes : e ∈ scoreSet db.players := (List.take_sublist 10 _).subset he
  rcases (mem_scoreSet db.players e).mp hes with ⟨pr, hpr, rfl⟩
  exact ⟨pr.2, hpr⟩

lemma mem_players_of_mem_topAssists {db : PlayerDB} {id : PlayerId}
    (h : id ∈ (db.index_players).top_assists) : ∃ p, (id, p) ∈ db.players := by
  rw [topAssists_eq] at h
  rcases List.mem_map.mp h with ⟨e, he, rfl⟩
  have hes : e ∈ assistSet db.players := (List.take_sublist 10 _).subset he
  rcases (mem_assistSet db.players e).mp hes with ⟨pr, hpr, rfl⟩
  exact ⟨pr.2, hpr⟩

/-- The order claimed for the ranked id sequences: the earlier id has a
strictly larger metric value, or the values tie and the earlier id is
lexicographically smaller. -/
def rankedBefore (players : List (PlayerId × Player)) (sel : Player → Nat)
    (a b : PlayerId) : Prop :=
  ∀ pa pb, lookupPlayer players a = some pa → lookupPlayer players b = some pb →
    sel pb < sel pa ∨ (sel pa = sel pb ∧ a < b)

lemma topScorers_pairwise (db : PlayerDB) (hnd : keysNodup db.players) :
    (db.index_players).top_scorers.Pairwise
      (rankedBefore db.players (fun p => p.goals_scored)) := by
  rw [topScorers_eq, List.pairwise_map]
  refine (take_scoreSet_pairwise db.players).imp_of_mem ?_
  intro e1 e2 h1 h2 hlt
  have hs1 : e1 ∈ scoreSet db.players := (List.take_sublist 10 _).subset h1
  have hs2 : e2 ∈ scoreSet db.players := (List.take_sublist 10 _).subset h2
  rcases (mem_scoreSet db.players e1).mp hs1 with ⟨p1, hp1, rfl⟩
  rcases (mem_scoreSet db.players e2).mp hs2 with ⟨p2, hp2, rfl⟩
  intro pa pb hla hlb
  have hla2 : lookupPlayer db.players p1.1 = some p1.2 := lookup_eq_some_of_mem hnd hp1
  have hlb2 : lookupPlayer db.players p2.1 = some p2.2 := lookup_eq_some_of_mem hnd hp2
  rw [hla] at hla2
  rw [hlb] at hlb2
  obtain rfl : p1.2 = pa := Option.some_injective _ hla2.symm
  obtain rfl : p2.2 = pb := Option.some_injective _ hlb2.symm
  simp only [pwsLT] at hlt
  rcases hlt with h | ⟨h, hid⟩
  · exact Or.inl h
  · exact Or.inr ⟨h.symm, hid⟩

lemma topAssists_pairwise (db : PlayerDB) (hnd : keysNodup db.players) :
    (db.index_players).top_assists.Pairwise
      (rankedBefore db.players (fun p => p.assists)) := by
  rw [topAssists_eq, List.pairwise_map]
  refine (take_assistSet_pairwise db.players).imp_of_mem ?_
  intro e1 e2 h1 h2 hlt
  have hs1 : e1 ∈ assistSet db.players := (List.take_sublist 10 _).subset h1
  have hs2 : e2 ∈ assistSet db.players := (List.take_sublist 10 _).subset h2
  rcases (mem_assistSet db.players e1).mp hs1 with ⟨p1, hp1, rfl⟩
  rcases (mem_assistSet db.players e2).mp hs2 with ⟨p2, hp2, rfl⟩
  intro pa pb hla hlb
  have hla2 : lookupPlayer db.players p1.1 = some p1.2 := lookup_eq_some_of_mem hnd hp1
  have hlb2 : lookupPlayer db.players p2.1 = some p2.2 := lookup_eq_some_of_mem hnd hp2
  rw [hla] at hla2
  rw [hlb] at hlb2
  obtain rfl : p1.2 = pa := Option.some_injective _ hla2.symm
  obtain rfl : p2.2 = pb := Option.some_injective _ hlb2.symm
  simp only [pwaLT] at hlt
  rcases hlt with h | ⟨h, hid⟩
  · exact Or.inl h
  · exact Or.inr ⟨h.symm, hid⟩

/-! ## The print loops: totality and the realised ranking scheme -/

lemma leaderboardLoop_isSome (players : List (PlayerId × Player)) (sel : Player → Nat)
    (ids : List PlayerId) :
    ∀ (isFirst : Bool) (pos prev : Nat),
      (∀ id ∈ ids, (lookupPlayer players id).isSome) →
      (leaderboardLoop players sel ids isFirst pos prev).isSome := by
  induction ids with
  | nil => intro _ _ _ _; simp [leaderboardLoop]
  | cons id rest ih =>
    intro isFirst pos prev hlk
    obtain ⟨p, hp⟩ := Option.isSome_iff_exists.mp (hlk id (List.mem_cons_self id rest))
    have hrec := ih false
      (if (if isFirst then sel p else prev) > sel p then pos + 1 else pos)
      (if (if isFirst then sel p else prev) > sel p then sel p
        else (if isFirst then sel p else prev))
      (fun i hi => hlk i (List.mem_cons_of_mem id hi))
    obtain ⟨tail, htail⟩ := Option.isSome_iff_exists.mp hrec
    simp [leaderboardLoop, hp, htail]

/-- One printed line to the next, as the loops actually rank: a repeated
metric value keeps the position, a strictly smaller one increments it by
exactly one (dense ranking). -/
def denseStep (x y : Nat × String × Nat) : Prop :=
  (y.2.2 = x.2.2 → y.1 = x.1) ∧ (y.2.2 < x.2.2 → y.1 = x.1 + 1)

/-- The metric value of the earlier id is at least that of the later id. -/
def valueLE (players : List (PlayerId × Player)) (sel : Player → Nat)
    (a b : PlayerId) : Prop :=
  ∀ pa pb, lookupPlayer players a = some pa → lookupPlayer players b = some pb →
    sel pb ≤ sel pa

lemma leaderboardLoop_dense (players : List (PlayerId × Player)) (sel : Player → Nat) :
    ∀ (ids : List PlayerId) (pos prev : Nat),
      (∀ id ∈ ids, (lookupPlayer players id).isSome) →
      ids.Chain' (valueLE players sel) →
      (∀ id0 ∈ ids.head?, ∀ p0, lookupPlayer players id0 = some p0 → sel p0 ≤ prev) →
      ∃ lines, leaderboardLoop players sel ids false pos prev = some lines ∧
        lines.Chain' denseStep ∧
        (∀ l0 ∈ lines.head?,
          l0.2.2 ≤ prev ∧ l0.1 = (if l0.2.2 < prev then pos + 1 else pos)) := by
  intro ids
  induction ids with
  | nil =>
    intro pos prev _ _ _
    exact ⟨[], rfl, List.chain'_nil, by simp⟩
  | cons id rest ih =>
    intro pos prev hlk hchain hhead
    obtain ⟨p, hp⟩ := Option.isSome_iff_exists.mp (hlk id (List.mem_cons_self id rest))
    have hv : sel p ≤ prev := hhead id rfl p hp
    have hlk2 : ∀ i ∈ rest, (lookupPlayer players i).isSome :=
      fun i hi => hlk i (List.mem_cons_of_mem id hi)
    have hchain2 : rest.Chain' (valueLE players sel) := hchain.tail
    have hheadrel : ∀ b ∈ rest.head?, valueLE players sel id b :=
      (List.chain'_cons'.mp hchain).1
    have hhead2 : ∀ i0 ∈ rest.head?, ∀ p0, lookupPlayer players i0 = some p0 →
        sel p0 ≤ sel p :=
      fun i0 hi0 p0 hp0 => hheadrel i0 hi0 p p0 hp hp0
    by_cases hlt : sel p < prev
    · obtain ⟨tail, heq, hchainT, hheadT⟩ := ih (pos + 1) (sel p) hlk2 hchain2 hhead2
      refine ⟨(pos + 1, p.name, sel p) :: tail, ?_, ?_, ?_⟩
      · simp [leaderboardLoop, hp, hlt, heq, gt_iff_lt]
      · refine List.chain'_cons'.mpr ⟨?_, hchainT⟩
        intro l0 hl0
        obtain ⟨hle, hpos⟩ := hheadT l0 hl0
        constructor
        · intro hvv
          rw [hpos, if_neg (by rw [hvv]; exact lt_irrefl _)]
        · intro hvv
          rw [hpos, if_pos hvv]
      · intro l0 hl0
        obtain rfl : (pos + 1, p.name, sel p) = l0 := by simpa using hl0
        exact ⟨hv, by simp [hlt]⟩
    · have hveq : sel p = prev := le_antisymm hv (not_lt.mp hlt)
      obtain ⟨tail, heq, hchainT, hheadT⟩ := ih pos (sel p) hlk2 hchain2 hhead2
      rw [hveq] at heq
      refine ⟨(pos, p.name, sel p) :: tail, ?_, ?_, ?_⟩
      · simp [leaderboardLoop, hp, hlt, heq, gt_iff_lt]
      · refine List.chain'_cons'.mpr ⟨?_, hchainT⟩
        intro l0 hl0
        obtain ⟨hle, hpos⟩ := hheadT l0 hl0
        constructor
        · intro hvv
          rw [hpos, if_neg (by rw [hvv]; exact lt_irrefl _)]
        · intro hvv
          rw [hpos, if_pos hvv]
      · intro l0 hl0
        obtain rfl : (pos, p.name, sel p) = l0 := by simpa using hl0
        exact ⟨hv, by simp [hveq]⟩

lemma leaderboardLoop_first_dense (players : List (PlayerId × Player)) (sel : Player → Nat)
    (ids : List PlayerId)
    (hlk : ∀ id ∈ ids, (lookupPlayer players id).isSome)
    (hchain : ids.Chain' (valueLE players sel)) :
    ∃ lines, leaderboardLoop players sel ids true 1 0 = some lines ∧
      lines.Chain' denseStep ∧ (∀ l0 ∈ lines.head?, l0.1 = 1) := by
  cases ids with
  | nil => exact ⟨[], rfl, List.chain'_nil, by simp⟩
  | cons id rest =>
    obtain ⟨p, hp⟩ := Option.isSome_iff_exists.mp (hlk id (List.mem_cons_self id rest))
    have hlk2 : ∀ i ∈ rest, (lookupPlayer players i).isSome :=
      fun i hi => hlk i (List.mem_cons_of_mem id hi)
    have hheadrel : ∀ b ∈ rest.head?, valueLE players sel id b :=
      (List.chain'_cons'.mp hchain).1
    have hhead2 : ∀ i0 ∈ rest.head?, ∀ p0, lookupPlayer players i0 = some p0 →
        sel p0 ≤ sel p :=
      fun i0 hi0 p0 hp0 => hheadrel i0 hi0 p p0 hp hp0
    obtain ⟨tail, heq, hchainT, hheadT⟩ :=
      leaderboardLoop_dense players sel rest 1 (sel p) hlk2 hchain.tail hhead2
    refine ⟨(1, p.name, sel p) :: tail, ?_, ?_, ?_⟩
    · simp [leaderboardLoop, hp, heq, gt_iff_lt, lt_irrefl]
    · refine List.chain'_cons'.mpr ⟨?_, hchainT⟩
      intro l0 hl0
      obtain ⟨hle, hpos⟩ := hheadT l0 hl0
      constructor
      · intro hvv
        rw [hpos, if_neg (by rw [hvv]; exact lt_irrefl _)]
      · intro hvv
        rw [hpos, if_pos hvv]
    · intro l0 hl0
      obtain rfl : (1, p.name, sel p) = l0 := by simpa using hl0
      rfl

/-! ## Retriever support lemmas -/

instance {ε α : Type} [DecidableEq ε] [DecidableEq α] : DecidableEq (Except ε α) := by
  intro x y
  cases x with
  | ok a =>
    cases y with
    | ok b =>
      cases decEq a b with
      | isTrue h => exact isTrue (by rw [h])
      | isFalse h => exact isFalse (by intro hc; cases hc; exact h rfl)
    | error f => exact isFalse (by intro hc; cases hc)
  | error e =>
    cases y with
    | ok b => exact isFalse (by intro hc; cases hc)
    | error f =>
      cases decEq e f with
      | isTrue h => exact isTrue (by rw [h])
      | isFalse h => exact isFalse (by intro hc; cases hc; exact h rfl)

lemma request_data_events {T : Type} (codec : Codec T) (transport : Transport)
    (access_level : String) :
    (request_data codec transport access_level).2
      = (if access_level == "trial" then [Event.sleep 2] else []) ++ [Event.send] := by
  cases hs : transport.sendOk with
  | false => simp [request_data, hs]
  | true =>
    cases hst : statusIsSuccess transport.status with
    | false => simp [request_data, hs, hst]
    | true =>
      cases hd : codec.decode transport.body with
      | none => simp [request_data, hs, hst, hd]
      | some data => simp [request_data, hs, hst, hd]

lemma fetch_data_events_on_miss {T : Type} (codec : Codec T) (transport : Transport)
    (writeOk : Bool) (fs : CacheState) (cache_path access_level : String)
    (hmiss : read_from_cache codec fs cache_path = .ok none) :
    (fetch_data codec transport writeOk fs cache_path access_level).2.1
      = (request_data codec transport access_level).2 := by
  unfold fetch_data
  rw [hmiss]
  rcases hreq : request_data codec transport access_level with ⟨res, events⟩
  cases res with
  | error e => simp
  | ok data =>
    cases hw : write_to_cache codec writeOk fs cache_path data with
    | error e => simp [hw]
    | ok fs2 => simp [hw]

/-! ## Accumulation-loop support lemmas -/

/-- The roster carried by one per-competitor fetch outcome. -/
def unitPlayers : Except String ApiSeasonCompetitorStatistics → List ApiGamePlayers
  | .ok d => d.competitor.players
  | .error _ => []

lemma add_player_keys_not_mem {db : PlayerDB} {id : PlayerId} {player : Player}
    (hid : id ∉ db.players.map Prod.fst) (hne : player.id ≠ id) :
    id ∉ (db.add_player player).players.map Prod.fst := by
  intro h
  simp only [PlayerDB.add_player, List.map_cons, List.mem_cons] at h
  rcases h with h | h
  · exact hne h.symm
  · rcases List.mem_map.mp h with ⟨q, hq, rfl⟩
    exact hid (List.mem_map_of_mem Prod.fst (List.mem_of_mem_filter hq))

lemma addLoop_keys_not_mem (id : PlayerId) (aps : List ApiGamePlayers) :
    ∀ (db : PlayerDB), id ∉ db.players.map Prod.fst →
    (∀ ap ∈ aps, ap.id = id → ap.statistics.goals_scored = 0) →
    id ∉ (aps.foldl
      (fun db player =>
        if player.statistics.goals_scored == 0 then db
        else db.add_player
          { id := player.id
            name := player.name
            goals_scored := player.statistics.goals_scored
            assists := player.statistics.assists })
      db).players.map Prod.fst := by
  induction aps with
  | nil => intro db hdb _; exact hdb
  | cons ap aps ih =>
    intro db hdb hz
    simp only [List.foldl_cons]
    by_cases hg : ap.statistics.goals_scored = 0
    · rw [if_pos (by simpa using hg)]
      exact ih db hdb (fun a ha => hz a (List.mem_cons_of_mem ap ha))
    · rw [if_neg (by simpa using hg)]
      refine ih _ ?_ (fun a ha => hz a (List.mem_cons_of_mem ap ha))
      refine add_player_keys_not_mem hdb ?_
      intro he
      exact hg (hz ap (List.mem_cons_self ap aps) he)

lemma index_players_top_mem_keys {db : PlayerDB} {id : PlayerId} :
    (id ∈ (db.index_players).top_scorers → id ∈ db.players.map Prod.fst) ∧
    (id ∈ (db.index_players).top_assists → id ∈ db.players.map Prod.fst) := by
  constructor
  · intro h
    rcases mem_players_of_mem_topScorers h with ⟨p, hp⟩
    exact List.mem_map_of_mem Prod.fst hp
  · intro h
    rcases mem_players_of_mem_topAssists h with ⟨p, hp⟩
    exact List.mem_map_of_mem Prod.fst hp

lemma processUnit_excludes {db : PlayerDB} {data : ApiSeasonCompetitorStatistics}
    {id : PlayerId}
    (hdb : id ∉ db.players.map Prod.fst ∧ id ∉ db.top_scorers ∧ id ∉ db.top_assists)
    (hz : ∀ ap ∈ data.competitor.players, ap.id = id →
      ap.statistics.goals_scored = 0) :
    id ∉ (processUnit db data).players.map Prod.fst ∧
    id ∉ (processUnit db data).top_scorers ∧ id ∉ (processUnit db data).top_assists := by
  unfold processUnit
  by_cases he : data.competitor.players.isEmpty
  · rw [if_pos he]; exact hdb
  · rw [if_neg he]
    have hkeys := addLoop_keys_not_mem id data.competitor.players db hdb.1 hz
    refine ⟨hkeys, ?_, ?_⟩
    · intro h
      exact hkeys (index_players_top_mem_keys.1 h)
    · intro h
      exact hkeys (index_players_top_mem_keys.2 h)

lemma processUnits_excludes {id : PlayerId}
    (units : List (Except String ApiSeasonCompetitorStatistics)) :
    ∀ (db : PlayerDB),
    (id ∉ db.players.map Prod.fst ∧ id ∉ db.top_scorers ∧ id ∉ db.top_assists) →
    (∀ u ∈ units, ∀ ap ∈ unitPlayers u, ap.id = id →
      ap.statistics.goals_scored = 0) →
    ∀ db2, processUnits db units = .ok db2 →
    id ∉ db2.players.map Prod.fst ∧ id ∉ db2.top_scorers ∧ id ∉ db2.top_assists := by
  induction units with
  | nil =>
    intro db hdb _ db2 hrun
    cases hrun
    exact hdb
  | cons u units ih =>
    intro db hdb hz db2 hrun
    cases u with
    | error e => exact absurd hrun (by simp [processUnits])
    | ok data =>
      simp only [processUnits] at hrun
      refine ih (processUnit db data) ?_
        (fun v hv => hz v (List.mem_cons_of_mem _ hv)) db2 hrun
      exact processUnit_excludes hdb
        (fun ap hap => hz (.ok data) (List.mem_cons_self _ _) ap hap)

/-! ## Concrete fixtures used by claim witnesses and counterexamples -/

/-- Eleven players with pairwise distinct ids, all with 5 goals: every
metric value ties with the boundary value at position 9. -/
def dbC1 : PlayerDB :=
  { players :=
      [("a", ⟨"a", "A", 5, 0⟩), ("b", ⟨"b", "B", 5, 0⟩), ("c", ⟨"c", "C", 5, 0⟩),
       ("d", ⟨"d", "D", 5, 0⟩), ("e", ⟨"e", "E", 5, 0⟩), ("f", ⟨"f", "F", 5, 0⟩),
       ("g", ⟨"g", "G", 5, 0⟩), ("h", ⟨"h", "H", 5, 0⟩), ("i", ⟨"i", "I", 5, 0⟩),
       ("j", ⟨"j", "J", 5, 0⟩), ("k", ⟨"k", "K", 5, 0⟩)]
    top_scorers := []
    top_assists := [] }

def unitA_c2 : ApiSeasonCompetitorStatistics :=
  ⟨⟨"sr-competitor-1", 3, [⟨"pA", "Ann", ⟨3, 1⟩⟩]⟩⟩

def unitB_c2 : ApiSeasonCompetitorStatistics :=
  ⟨⟨"sr-competitor-2", 2, [⟨"pB", "Ben", ⟨2, 0⟩⟩]⟩⟩

def preC2 : List (Except String ApiSeasonCompetitorStatistics) := [.ok unitA_c2]

def restC2 : List (Except String ApiSeasonCompetitorStatistics) := [.ok unitB_c2]

/-- Two players tied at 5 goals and one at 3: competition ranking would
print positions 1, 1, 3. -/
def dbC3 : PlayerDB :=
  { players :=
      [("a", ⟨"a", "Alice", 5, 2⟩), ("b", ⟨"b", "Bob", 5, 2⟩),
       ("c", ⟨"c", "Carol", 3, 1⟩)]
    top_scorers := []
    top_assists := [] }

/-- Codec fixture recognising a single payload value. -/
def pingCodec : Codec Nat :=
  { encode := fun n => if n = 42 then some "PAYLOAD" else none
    decode := fun s => if s = "PAYLOAD" then some 42 else none }

/-- Transport fixture: a successful 200 response carrying the payload. -/
def okTransport : Transport := { sendOk := true, status := 200, body := "PAYLOAD" }

def fsC5 : CacheState := [("cache/stats_1.json", "PAYLOAD")]

def unitC9 : ApiSeasonCompetitorStatistics :=
  ⟨⟨"sr-competitor-9", 3, [⟨"z", "Zed", ⟨0, 7⟩⟩, ⟨"w", "Wyn", ⟨3, 1⟩⟩]⟩⟩

def unitsC9 : List (Except String ApiSeasonCompetitorStatistics) := [.ok unitC9]

/-- The database `processUnits PlayerDB.new unitsC9` produces. -/
def dbC9 : PlayerDB :=
  { players := [("w", ⟨"w", "Wyn", 3, 1⟩)], top_scorers := ["w"], top_assists := ["w"] }

def dbC10 : PlayerDB :=
  { players := [("a", ⟨"a", "Alice", 5, 2⟩), ("b", ⟨"b", "Bob", 4, 6⟩)]
    top_scorers := []
    top_assists := [] }

/-! ## Claim theorems -/

/-- Claim C1 (code evaluated at the failing input): with eleven players
all tied on the metric value, `index_players` keeps only 10 ids — the
claimed extension of the result with every entry tying the value at
position `limit − 1`, which would require all 11, does not happen.  The
`take(10)` in the source contradicts its own comment, which announces
`take more than 10 if they are tied`. -/
theorem c1_boundary_tie_truncated :
    dbC1.players.length = 11 ∧
    (∀ p ∈ dbC1.players, p.2.goals_scored = 5) ∧
    keysNodup dbC1.players ∧
    (PlayerDB.index_players dbC1).top_scorers.length = 10 := by
  decide

/-- Claim C2 (counterexample): when the middle unit of a batch fails, the
embedded competitor loop of `main` returns that error — the run aborts
instead of continuing, and the third (successful) unit is never
accumulated or ranked. -/
theorem c2_failed_unit_aborts_cex :
    processUnits PlayerDB.new
      [.ok unitA_c2, .error "Request failed with status: 500", .ok unitB_c2]
      = .error "Request failed with status: 500" := by
  decide

/-- Claim C2 (amended): when the retrieval of one unit fails, the error is
propagated through the `?` operator and the run aborts: the result of the
loop is that error, regardless of any units after the failing one. -/
theorem c2_failed_unit_aborts (db : PlayerDB)
    (pre rest : List (Except String ApiSeasonCompetitorStatistics)) (e : String)
    (h : ∀ u ∈ pre, u.isOk = true) :
    processUnits db (pre ++ .error e :: rest) = .error e := by
  induction pre generalizing db with
  | nil => simp [processUnits]
  | cons u pre ih =>
    cases u with
    | ok d =>
      simp only [List.cons_append, processUnits]
      exact ih _ (fun x hx => h x (List.mem_cons_of_mem _ hx))
    | error e2 =>
      have hcontra := h _ (List.mem_cons_self _ _)
      simp [Except.isOk, Except.toBool] at hcontra

theorem c2_failed_unit_aborts_witness :
    (∀ u ∈ preC2, u.isOk = true) ∧
    processUnits PlayerDB.new (preC2 ++ .error "boom" :: restC2) = .error "boom" :=
  ⟨by decide, c2_failed_unit_aborts PlayerDB.new preC2 restC2 "boom" (by decide)⟩

/-- Claim C3 (counterexample): for the tie `5, 5, 3` the printed positions
are `1, 1, 2` — the third position is 2, not the 3 required by competition
ranking (which skips the tied count). -/
theorem c3_competition_rank_cex :
    print_top_scorers_lines (PlayerDB.index_players dbC3)
      = some [(1, "Alice", 5), (1, "Bob", 5), (2, "Carol", 3)] ∧
    (2 : Nat) ≠ 3 := by
  decide

/-- Claim C3 (amended): the printed leaderboards use dense ranking:
consecutive entries with equal metric value share the same 1-based rank
number, and the next entry with a strictly smaller value receives the
previous rank plus one (e.g. ranks 1, 1, 2 — the tied count is not
skipped); the first printed rank is 1. -/
theorem c3_dense_ranking (db : PlayerDB) (hnd : keysNodup db.players) :
    (∀ lines, print_top_scorers_lines (db.index_players) = some lines →
      lines.Chain' denseStep ∧ ∀ l0 ∈ lines.head?, l0.1 = 1) ∧
    (∀ lines, print_top_assists_lines (db.index_players) = some lines →
      lines.Chain' denseStep ∧ ∀ l0 ∈ lines.head?, l0.1 = 1) := by
  constructor
  · intro lines h
    unfold print_top_scorers_lines at h
    by_cases he : (db.index_players).top_scorers.isEmpty
    · rw [if_pos he] at h
      obtain rfl : ([] : List (Nat × String × Nat)) = lines := Option.some_injective _ h
      exact ⟨List.chain'_nil, by simp⟩
    · rw [if_neg he] at h
      have hlk : ∀ id ∈ (db.index_players).top_scorers,
          (lookupPlayer (db.index_players).players id).isSome := by
        intro id hid
        rcases mem_players_of_mem_topScorers hid with ⟨p, hp⟩
        rw [index_players_players, lookup_eq_some_of_mem hnd hp]
        rfl
      have hchain : (db.index_players).top_scorers.Chain'
          (valueLE (db.index_players).players (fun p => p.goals_scored)) := by
        refine List.Pairwise.chain' ((topScorers_pairwise db hnd).imp ?_)
        intro a b hr pa pb ha hb
        rcases hr pa pb ha hb with hlt | ⟨heq2, -⟩
        · exact le_of_lt hlt
        · exact le_of_eq heq2.symm
      obtain ⟨lines2, heq, hchainD, hhead⟩ :=
        leaderboardLoop_first_dense (db.index_players).players
          (fun p => p.goals_scored) (db.index_players).top_scorers hlk hchain
      rw [heq] at h
      obtain rfl : lines2 = lines := Option.some_injective _ h
      exact ⟨hchainD, hhead⟩
  · intro lines h
    unfold print_top_assists_lines at h
    by_cases he : (db.index_players).top_assists.isEmpty
    · rw [if_pos he] at h
      obtain rfl : ([] : List (Nat × String × Nat)) = lines := Option.some_injective _ h
      exact ⟨List.chain'_nil, by simp⟩
    · rw [if_neg he] at h
      have hlk : ∀ id ∈ (db.index_players).top_assists,
          (lookupPlayer (db.index_players).players id).isSome := by
        intro id hid
        rcases mem_players_of_mem_topAssists hid with ⟨p, hp⟩
        rw [index_players_players, lookup_eq_some_of_mem hnd hp]
        rfl
      have hchain : (db.index_players).top_assists.Chain'
          (valueLE (db.index_players).players (fun p => p.assists)) := by
        refine List.Pairwise.chain' ((topAssists_pairwise db hnd).imp ?_)
        intro a b hr pa pb ha hb
        rcases hr pa pb ha hb with hlt | ⟨heq2, -⟩
        · exact le_of_lt hlt
        · exact le_of_eq heq2.symm
      obtain ⟨lines2, heq, hchainD, hhead⟩ :=
        leaderboardLoop_first_dense (db.index_players).players
          (fun p => p.assists) (db.index_players).top_assists hlk hchain
      rw [heq] at h
      obtain rfl : lines2 = lines := Option.some_injective _ h
      exact ⟨hchainD, hhead⟩

theorem c3_dense_ranking_witness :
    keysNodup dbC3.players ∧
    ((∀ lines, print_top_scorers_lines (dbC3.index_players) = some lines →
      lines.Chain' denseStep ∧ ∀ l0 ∈ lines.head?, l0.1 = 1) ∧
    (∀ lines, print_top_assists_lines (dbC3.index_players) = some lines →
      lines.Chain' denseStep ∧ ∀ l0 ∈ lines.head?, l0.1 = 1)) :=
  ⟨by decide, c3_dense_ranking dbC3 (by decide)⟩

/-- Claim C4: both ranked id sequences produced by `index_players` are
sorted descending by their metric value, and two entries with equal metric
value appear in ascending lexicographic id order. -/
theorem c4_ranked_order (db : PlayerDB) (hnd : keysNodup db.players) :
    (db.index_players).top_scorers.Pairwise
      (rankedBefore db.players (fun p => p.goals_scored)) ∧
    (db.index_players).top_assists.Pairwise
      (rankedBefore db.players (fun p => p.assists)) :=
  ⟨topScorers_pairwise db hnd, topAssists_pairwise db hnd⟩

theorem c4_ranked_order_witness :
    keysNodup dbC10.players ∧
    ((dbC10.index_players).top_scorers.Pairwise
      (rankedBefore dbC10.players (fun p => p.goals_scored)) ∧
    (dbC10.index_players).top_assists.Pairwise
      (rankedBefore dbC10.players (fun p => p.assists))) :=
  ⟨by decide, c4_ranked_order dbC10 (by decide)⟩

/-- Claim C5: when the cache read yields a decoded value, `fetch_data`
returns it unchanged with an empty event trace (no sleep, no network send)
and an unchanged cache state (no cache write). -/
theorem c5_cache_hit_no_network {T : Type} (codec : Codec T) (transport : Transport)
    (writeOk : Bool) (fs : CacheState) (cache_path access_level : String) (v : T)
    (hread : read_from_cache codec fs cache_path = .ok (some v)) :
    fetch_data codec transport writeOk fs cache_path access_level = (.ok v, [], fs) := by
  unfold fetch_data
  rw [hread]

theorem c5_cache_hit_no_network_witness :
    read_from_cache pingCodec fsC5 "cache/stats_1.json" = .ok (some 42) ∧
    fetch_data pingCodec okTransport true fsC5 "cache/stats_1.json" "trial"
      = (.ok 42, [], fsC5) :=
  ⟨by decide,
    c5_cache_hit_no_network pingCodec okTransport true fsC5 "cache/stats_1.json"
      "trial" 42 (by decide)⟩

/-- Claim C6: on a cache miss under the `trial` access tier, the event
trace of `fetch_data` is exactly the 2-unit sleep followed by the send —
the request is never dispatched before the full delay. -/
theorem c6_trial_sleep_before_send {T : Type} (codec : Codec T) (transport : Transport)
    (writeOk : Bool) (fs : CacheState) (cache_path : String)
    (hmiss : read_from_cache codec fs cache_path = .ok none) :
    (fetch_data codec transport writeOk fs cache_path "trial").2.1
      = [Event.sleep 2, Event.send] := by
  rw [fetch_data_events_on_miss codec transport writeOk fs cache_path "trial" hmiss,
    request_data_events]
  rfl

theorem c6_trial_sleep_before_send_witness :
    read_from_cache pingCodec [] "cache/stats_1.json" = .ok none ∧
    (fetch_data pingCodec okTransport true [] "cache/stats_1.json" "trial").2.1
      = [Event.sleep 2, Event.send] :=
  ⟨by decide,
    c6_trial_sleep_before_send pingCodec okTransport true [] "cache/stats_1.json"
      (by decide)⟩

/-- Claim C7: writing an encodable value with `write_to_cache` and then
reading the same key with `read_from_cache` yields the value back
(given the codec round-trips on it). -/
theorem c7_cache_round_trip {T : Type} (codec : Codec T) (fs : CacheState)
    (cache_path s : String) (v : T)
    (henc : codec.encode v = some s) (hdec : codec.decode s = some v) :
    ∃ fs2, write_to_cache codec true fs cache_path v = .ok fs2 ∧
      read_from_cache codec fs2 cache_path = .ok (some v) := by
  refine ⟨fsWrite fs cache_path s, ?_, ?_⟩
  · unfold write_to_cache
    rw [henc]
    rfl
  · unfold read_from_cache fsWrite
    simp [List.lookup, hdec]

theorem c7_cache_round_trip_witness :
    pingCodec.encode 42 = some "PAYLOAD" ∧ pingCodec.decode "PAYLOAD" = some 42 ∧
    ∃ fs2, write_to_cache pingCodec true [] "cache/stats_1.json" 42 = .ok fs2 ∧
      read_from_cache pingCodec fs2 "cache/stats_1.json" = .ok (some 42) :=
  ⟨by decide, by decide,
    c7_cache_round_trip pingCodec [] "cache/stats_1.json" "PAYLOAD" 42
      (by decide) (by decide)⟩

/-- Claim C8: on a cache miss, when the request and decode succeed but the
cache write fails, `fetch_data` returns the cache-write error instead of
the fetched value. -/
theorem c8_cache_write_failure_error {T : Type} (codec : Codec T)
    (transport : Transport) (fs : CacheState) (cache_path access_level s : String)
    (v : T)
    (hmiss : read_from_cache codec fs cache_path = .ok none)
    (hsend : transport.sendOk = true)
    (hstat : statusIsSuccess transport.status = true)
    (hdec : codec.decode transport.body = some v)
    (henc : codec.encode v = some s) :
    (fetch_data codec transport false fs cache_path access_level).1
      = .error "Failed to write the cache file" := by
  have hreq : (request_data codec transport access_level).1 = .ok v := by
    simp [request_data, hsend, hstat, hdec]
  unfold fetch_data
  rw [hmiss]
  rcases hr2 : request_data codec transport access_level with ⟨res, events⟩
  rw [hr2] at hreq
  simp only at hreq
  subst hreq
  have hw : write_to_cache codec false fs cache_path v
      = .error "Failed to write the cache file" := by
    unfold write_to_cache
    rw [henc]
    rfl
  simp [hw]

theorem c8_cache_write_failure_error_witness :
    read_from_cache pingCodec [] "cache/stats_1.json" = .ok none ∧
    okTransport.sendOk = true ∧ statusIsSuccess okTransport.status = true ∧
    pingCodec.decode okTransport.body = some 42 ∧
    pingCodec.encode 42 = some "PAYLOAD" ∧
    (fetch_data pingCodec okTransport false [] "cache/stats_1.json" "trial").1
      = .error "Failed to write the cache file" :=
  ⟨by decide, by decide, by decide, by decide, by decide,
    c8_cache_write_failure_error pingCodec okTransport [] "cache/stats_1.json"
      "trial" "PAYLOAD" 42 (by decide) (by decide) (by decide) (by decide) (by decide)⟩

/-- Claim C9: a player observed only with `goals_scored = 0` is never
added by the accumulation loop, so it appears in neither leaderboard —
even when its assists count is non-zero. -/
theorem c9_zero_goals_excluded (units : List (Except String ApiSeasonCompetitorStatistics))
    (id : PlayerId) (db2 : PlayerDB)
    (hrun : processUnits PlayerDB.new units = .ok db2)
    (hz : ∀ u ∈ units, ∀ ap ∈ unitPlayers u, ap.id = id →
      ap.statistics.goals_scored = 0) :
    id ∉ db2.players.map Prod.fst ∧ id ∉ db2.top_scorers ∧ id ∉ db2.top_assists :=
  processUnits_excludes units PlayerDB.new (by simp [PlayerDB.new]) hz db2 hrun

theorem c9_zero_goals_excluded_witness :
    processUnits PlayerDB.new unitsC9 = .ok dbC9 ∧
    (∀ u ∈ unitsC9, ∀ ap ∈ unitPlayers u, ap.id = "z" →
      ap.statistics.goals_scored = 0) ∧
    ("z" ∉ dbC9.players.map Prod.fst ∧ "z" ∉ dbC9.top_scorers ∧
      "z" ∉ dbC9.top_assists) :=
  ⟨by decide, by decide,
    c9_zero_goals_excluded unitsC9 "z" dbC9 (by decide) (by decide)⟩

/-- Claim C10: after `index_players`, both id sequences are duplicate-free
and contain only keys of the player map, so both print loops complete with
every lookup succeeding (the `unwrap` cannot panic). -/
theorem c10_index_invariants (db : PlayerDB) (hnd : keysNodup db.players) :
    (db.index_players).top_scorers.Nodup ∧
    (db.index_players).top_assists.Nodup ∧
    (∀ id ∈ (db.index_players).top_scorers,
      id ∈ (db.index_players).players.map Prod.fst) ∧
    (∀ id ∈ (db.index_players).top_assists,
      id ∈ (db.index_players).players.map Prod.fst) ∧
    (print_top_scorers_lines (db.index_players)).isSome ∧
    (print_top_assists_lines (db.index_players)).isSome := by
  have hlkS : ∀ id ∈ (db.index_players).top_scorers,
      (lookupPlayer (db.index_players).players id).isSome := by
    intro id hid
    rcases mem_players_of_mem_topScorers hid with ⟨p, hp⟩
    rw [index_players_players, lookup_eq_some_of_mem hnd hp]
    rfl
  have hlkA : ∀ id ∈ (db.index_players).top_assists,
      (lookupPlayer (db.index_players).players id).isSome := by
    intro id hid
    rcases mem_players_of_mem_topAssists hid with ⟨p, hp⟩
    rw [index_players_players, lookup_eq_some_of_mem hnd hp]
    rfl
  refine ⟨topScorers_nodup db hnd, topAssists_nodup db hnd, ?_, ?_, ?_, ?_⟩
  · intro id hid
    rcases mem_players_of_mem_topScorers hid with ⟨p, hp⟩
    exact List.mem_map_of_mem Prod.fst hp
  · intro id hid
    rcases mem_players_of_mem_topAssists hid with ⟨p, hp⟩
    exact List.mem_map_of_mem Prod.fst hp
  · unfold print_top_scorers_lines
    by_cases he : (db.index_players).top_scorers.isEmpty
    · rw [if_pos he]; rfl
    · rw [if_neg he]
      exact leaderboardLoop_isSome (db.index_players).players
        (fun p => p.goals_scored) (db.index_players).top_scorers true 1 0 hlkS
  · unfold print_top_assists_lines
    by_cases he : (db.index_players).top_assists.isEmpty
    · rw [if_pos he]; rfl
    · rw [if_neg he]
      exact leaderboardLoop_isSome (db.index_players).players
        (fun p => p.assists) (db.index_players).top_assists true 1 0 hlkA

theorem c10_index_invariants_witness :
    keysNodup dbC10.players ∧
    ((dbC10.index_players).top_scorers.Nodup ∧
    (dbC10.index_players).top_assists.Nodup ∧
    (∀ id ∈ (dbC10.index_players).top_scorers,
      id ∈ (dbC10.index_players).players.map Prod.fst) ∧
    (∀ id ∈ (dbC10.index_players).top_assists,
      id ∈ (dbC10.index_players).players.map Prod.fst) ∧
    (print_top_scorers_lines (dbC10.index_players)).isSome ∧
    (print_top_assists_lines (dbC10.index_players)).isSome) :=
  ⟨by decide, c10_index_invariants dbC10 (by decide)⟩

end TalentScout
